import Mathlib

/-!
Shallow embedding of the weaverbird-prql translation layer.

The source (src/src/translate.rs, src/src/pipeline/mod.rs,
src/src/pipeline/steps/{domain,aggregate,filter}.rs and the near-duplicate
src/src/main.rs) renders a JSON-described pipeline of steps into PRQL text.
All renderers have type `fn to_prql(&self, dialect: &Dialect) -> Result<String>`;
we embed `Result<String>` as `Except String String`, strings as `String`,
`Vec<T>` as `List T` and `serde_json::Value` as the inductive `Value` below.
-/

namespace WeaverbirdPrql

/-- Target SQL dialect (src/src/translate.rs, `enum Dialect`). -/
inductive Dialect where
  | Postgres
  | BigQuery
deriving DecidableEq, Repr

/-- Models `Vec::join(sep)` on a vector of strings: elements in order with
`sep` between consecutive elements. -/
def joinSep (sep : String) : List String → String
  | [] => ""
  | [s] => s
  | s :: t :: rest => s ++ sep ++ joinSep sep (t :: rest)

/-- Models Rust `str::replace` with a one-character pattern: every occurrence
of the character `c` is replaced by the string `repl`. -/
def replaceChar (c : Char) (repl : String) (s : String) : String :=
  String.mk (s.data.flatMap (fun a => if a = c then repl.data else [a]))

/-- The per-dialect replacement for an embedded single quote used by the
`ToSString` impl for `String` (src/src/translate.rs lines 43-56): `''` for
Postgres, and the three characters backslash backslash quote (Rust raw
string `r#"\\'"#`) for BigQuery. -/
def single_quote_replacement (d : Dialect) : String :=
  match d with
  | .Postgres => "''"
  | .BigQuery => "\\\\'"

/-- `impl ToSString for String` (src/src/translate.rs lines 43-56): wrap in
single quotes, replacing each embedded single quote per dialect. -/
def String.to_s_string (s : String) (d : Dialect) : Except String String :=
  .ok ("'" ++ replaceChar '\'' (single_quote_replacement d) s ++ "'")

/-- A wrapped column identifier (src/src/translate.rs, `struct Column(pub String)`). -/
structure Column where
  name : String
deriving DecidableEq, Repr

/-- `impl ToPrql for Column` (src/src/translate.rs lines 28-32): backtick
quoting, for both dialects. -/
def Column.to_prql (c : Column) (_d : Dialect) : Except String String :=
  .ok ("`" ++ c.name ++ "`")

/-- `impl ToSString for Column` (src/src/translate.rs lines 34-41): inside an
s-string the identifier is escaped-double-quoted for Postgres (`\"name\"`)
and backticked for BigQuery. -/
def Column.to_s_string (c : Column) (d : Dialect) : Except String String :=
  match d with
  | .Postgres => .ok ("\\\"" ++ c.name ++ "\\\"")
  | .BigQuery => .ok ("`" ++ c.name ++ "`")

/-- Embedding of `serde_json::Value` (an external library type re-exported by
src/src/translate.rs): JSON scalars plus arrays and objects. JSON numbers
are modelled as integers, which covers every number the claims touch. -/
inductive Value where
  | null
  | bool (b : Bool)
  | num (n : Int)
  | str (s : String)
  | arr (elems : List Value)
  | obj (fields : List (String × Value))

/-- Lowercase hexadecimal digit, as used by serde_json's escape table. -/
def hexDigit (n : Nat) : Char :=
  if n < 10 then Char.ofNat (48 + n) else Char.ofNat (87 + n)

/-- JSON escaping of one character inside a double-quoted JSON string, as done
by serde_json's `Display` (an external library: quote and backslash escaped,
short escapes for the usual control characters, `\u00XX` otherwise). -/
def jsonEscapeChar (c : Char) : String :=
  if c = '"' then "\\\""
  else if c = '\\' then "\\\\"
  else if c = Char.ofNat 8 then "\\b"
  else if c = '\t' then "\\t"
  else if c = '\n' then "\\n"
  else if c = Char.ofNat 12 then "\\f"
  else if c = '\r' then "\\r"
  else if c.toNat < 32 then "\\u00" ++ String.mk [hexDigit (c.toNat / 16), hexDigit (c.toNat % 16)]
  else String.singleton c

/-- A double-quoted JSON string literal, serde_json `Display` style. -/
def jsonQuote (s : String) : String :=
  "\"" ++ String.join (s.data.map jsonEscapeChar) ++ "\""

mutual

/-- `serde_json::Value`'s `Display`/`to_string()` (external library): compact
JSON with no spaces after separators. -/
def Value.to_string : Value → String
  | .null => "null"
  | .bool true => "true"
  | .bool false => "false"
  | .num n => toString n
  | .str s => jsonQuote s
  | .arr elems => "[" ++ Value.arr_to_string elems ++ "]"
  | .obj fields => "\x7b" ++ Value.obj_to_string fields ++ "\x7d"

/-- Comma-joined compact JSON of array elements. -/
def Value.arr_to_string : List Value → String
  | [] => ""
  | [v] => Value.to_string v
  | v :: w :: rest => Value.to_string v ++ "," ++ Value.arr_to_string (w :: rest)

/-- Comma-joined compact JSON of object fields. -/
def Value.obj_to_string : List (String × Value) → String
  | [] => ""
  | [(k, v)] => jsonQuote k ++ ":" ++ Value.to_string v
  | (k, v) :: w :: rest =>
    jsonQuote k ++ ":" ++ Value.to_string v ++ "," ++ Value.obj_to_string (w :: rest)

end

/-- `impl ToSString for Value` (src/src/translate.rs lines 58-65): strings go
through the single-quote escaping; every other runtime type falls to the
`_ => Ok(self.to_string())` arm, i.e. its compact JSON text. -/
def Value.to_s_string (v : Value) (d : Dialect) : Except String String :=
  match v with
  | .str s => String.to_s_string s d
  | _ => .ok (Value.to_string v)

/-- Models `iter().map(f).collect::<Result<Vec<String>>>()`: fail-fast,
left-to-right mapping over a list in the `Result` monad. -/
def exceptMapList {α : Type} (f : α → Except String String) : List α → Except String (List String)
  | [] => .ok []
  | a :: rest =>
    match f a with
    | .error e => .error e
    | .ok s =>
      match exceptMapList f rest with
      | .error e => .error e
      | .ok ss => .ok (s :: ss)

/-- The six comparison operators (src/src/pipeline/steps/filter.rs,
`enum ComparisonOperator`). -/
inductive ComparisonOperator where
  | Eq
  | Ne
  | Gt
  | Gte
  | Lt
  | Lte
deriving DecidableEq, Repr

/-- `struct ComparisonCondition` (src/src/pipeline/steps/filter.rs lines 59-64). -/
structure ComparisonCondition where
  column : Column
  operator : ComparisonOperator
  value : Value

/-- `impl ToPrql for ComparisonCondition` (src/src/pipeline/steps/filter.rs
lines 66-83): `<col> <op-token> <value-Display>`. -/
def ComparisonCondition.to_prql (c : ComparisonCondition) (d : Dialect) : Except String String :=
  let op := match c.operator with
    | .Eq => "=="
    | .Ne => "!="
    | .Gt => ">"
    | .Gte => ">="
    | .Lt => "<"
    | .Lte => "<="
  match Column.to_prql c.column d with
  | .ok col => .ok (col ++ " " ++ op ++ " " ++ Value.to_string c.value)
  | .error e => .error e

/-- `enum NullabilityOperator` (src/src/pipeline/steps/filter.rs). -/
inductive NullabilityOperator where
  | IsNull
  | NotNull
deriving DecidableEq, Repr

/-- `struct NullabilityCondition` (src/src/pipeline/steps/filter.rs lines 96-100). -/
structure NullabilityCondition where
  column : Column
  operator : NullabilityOperator

/-- `impl ToPrql for NullabilityCondition` (src/src/pipeline/steps/filter.rs
lines 102-111): comparison against `null`. -/
def NullabilityCondition.to_prql (c : NullabilityCondition) (d : Dialect) : Except String String :=
  match c.operator with
  | .IsNull =>
    match Column.to_prql c.column d with
    | .ok col => .ok (col ++ " == null")
    | .error e => .error e
  | .NotNull =>
    match Column.to_prql c.column d with
    | .ok col => .ok (col ++ " != null")
    | .error e => .error e

/-- `enum InclusionOperator` (src/src/pipeline/steps/filter.rs). -/
inductive InclusionOperator where
  | In
  | Nin
deriving DecidableEq, Repr

/-- `struct InclusionCondition` (src/src/pipeline/steps/filter.rs lines 120-125). -/
structure InclusionCondition where
  column : Column
  operator : InclusionOperator
  value : List Value

/-- The `self.value.iter().map(|v| v.to_s_string(dialect)).collect()` part of
`InclusionCondition::to_prql`. -/
def valuesSString (d : Dialect) (vs : List Value) : Except String (List String) :=
  exceptMapList (fun v => Value.to_s_string v d) vs

/-- `impl ToPrql for InclusionCondition` (src/src/pipeline/steps/filter.rs
lines 127-150): a raw s-string `s"<ident> IN (<values>)"` / `NOT IN`. -/
def InclusionCondition.to_prql (c : InclusionCondition) (d : Dialect) : Except String String :=
  match Column.to_s_string c.column d with
  | .error e => .error e
  | .ok col =>
    match valuesSString d c.value with
    | .error e => .error e
    | .ok vs =>
      match c.operator with
      | .In => .ok ("s\"" ++ col ++ " IN (" ++ joinSep ", " vs ++ ")\"")
      | .Nin => .ok ("s\"" ++ col ++ " NOT IN (" ++ joinSep ", " vs ++ ")\"")

/-- `enum MatchesOperator` (src/src/pipeline/steps/filter.rs). -/
inductive MatchesOperator where
  | Matches
  | NotMatches
deriving DecidableEq, Repr

/-- `struct MatchesCondition` (src/src/pipeline/steps/filter.rs lines 159-164). -/
structure MatchesCondition where
  column : Column
  operator : MatchesOperator
  value : String

/-- `impl ToPrql for MatchesCondition` (src/src/pipeline/steps/filter.rs lines
166-191): dialect-divergent raw s-string templates. -/
def MatchesCondition.to_prql (c : MatchesCondition) (d : Dialect) : Except String String :=
  match c.operator, d with
  | .Matches, .Postgres =>
    match Column.to_s_string c.column d, String.to_s_string c.value d with
    | .ok col, .ok v => .ok ("s\"" ++ col ++ " SIMILAR TO " ++ v ++ "\"")
    | .error e, _ => .error e
    | _, .error e => .error e
  | .NotMatches, .Postgres =>
    match Column.to_s_string c.column d, String.to_s_string c.value d with
    | .ok col, .ok v => .ok ("s\"" ++ col ++ " NOT SIMILAR TO " ++ v ++ "\"")
    | .error e, _ => .error e
    | _, .error e => .error e
  | .Matches, .BigQuery =>
    match Column.to_s_string c.column d, String.to_s_string c.value d with
    | .ok col, .ok v => .ok ("s\"REGEXP_CONTAINS(" ++ col ++ "," ++ v ++ ")\"")
    | .error e, _ => .error e
    | _, .error e => .error e
  | .NotMatches, .BigQuery =>
    match Column.to_s_string c.column d, String.to_s_string c.value d with
    | .ok col, .ok v => .ok ("s\"NOT REGEXP_CONTAINS(" ++ col ++ "," ++ v ++ ")\"")
    | .error e, _ => .error e
    | _, .error e => .error e

/-- `enum SimpleCondition` (src/src/pipeline/steps/filter.rs lines 36-44): the
four leaf condition shapes. -/
inductive SimpleCondition where
  | Comparison (c : ComparisonCondition)
  | Nullability (c : NullabilityCondition)
  | Inclusion (c : InclusionCondition)
  | Matches (c : MatchesCondition)

/-- `impl ToPrql for SimpleCondition` (src/src/pipeline/steps/filter.rs lines
46-57): dispatch to the leaf renderer. -/
def SimpleCondition.to_prql (c : SimpleCondition) (d : Dialect) : Except String String :=
  match c with
  | .Comparison cc => ComparisonCondition.to_prql cc d
  | .Nullability cc => NullabilityCondition.to_prql cc d
  | .Inclusion cc => InclusionCondition.to_prql cc d
  | .Matches cc => MatchesCondition.to_prql cc d

/-- `enum Condition` (src/src/pipeline/steps/filter.rs lines 17-23).
The source wraps the operand vectors in `struct OrCondition { or: Vec<Condition> }`
and `struct AndCondition { and: Vec<Condition> }`; the embedding inlines those
single-field structs as the constructor payloads. -/
inductive Condition where
  | Simple (c : SimpleCondition)
  | Or (or : List Condition)
  | And (and : List Condition)

mutual

/-- `impl ToPrql for Condition` plus `OrCondition::to_prql` (filter.rs lines
205-216, parenthesized `||`-join) and `AndCondition::to_prql` (filter.rs lines
223-232, bare `&&`-join). -/
def Condition.to_prql : Condition → Dialect → Except String String
  | .Simple c, d => SimpleCondition.to_prql c d
  | .Or ors, d =>
    match condListPrql ors d with
    | .ok parts => .ok ("(" ++ joinSep " || " parts ++ ")")
    | .error e => .error e
  | .And ands, d =>
    match condListPrql ands d with
    | .ok parts => .ok (joinSep " && " parts)
    | .error e => .error e

/-- The `iter().map(|condition| condition.to_prql(dialect)).collect()` shared
by the two composite renderers. -/
def condListPrql : List Condition → Dialect → Except String (List String)
  | [], _ => .ok []
  | c :: rest, d =>
    match Condition.to_prql c d with
    | .error e => .error e
    | .ok s =>
      match condListPrql rest d with
      | .error e => .error e
      | .ok ss => .ok (s :: ss)

end

/-- `struct FilterStep` (src/src/pipeline/steps/filter.rs lines 5-8). -/
structure FilterStep where
  condition : Condition

/-- `impl ToPrql for FilterStep` (src/src/pipeline/steps/filter.rs lines
10-15): `filter <condition>`. -/
def FilterStep.to_prql (f : FilterStep) (d : Dialect) : Except String String :=
  match Condition.to_prql f.condition d with
  | .ok c => .ok ("filter " ++ c)
  | .error e => .error e

/-- `enum AggregationFn` (src/src/pipeline/steps/aggregate.rs lines 93-105). -/
inductive AggregationFn where
  | Min
  | Max
  | Count
  | Avg
  | Sum
  | CountDistinct
  | First
  | Last
deriving DecidableEq, Repr

/-- `impl ToPrql for AggregationFn` (src/src/pipeline/steps/aggregate.rs lines
107-123): the PRQL function token; First and Last are not implemented in PRQL
and map to min and max. -/
def AggregationFn.to_prql (f : AggregationFn) (_d : Dialect) : Except String String :=
  .ok (match f with
    | .Min => "min"
    | .Max => "max"
    | .Count => "count"
    | .Avg => "avg"
    | .Sum => "sum"
    | .CountDistinct => "count_distinct"
    | .First => "min"
    | .Last => "max")

/-- `struct Aggregation` (src/src/pipeline/steps/aggregate.rs lines 68-75). -/
structure Aggregation where
  columns : List Column
  new_columns : List Column
  function : AggregationFn

/-- The closure mapped over `zip(&self.columns, &self.new_columns)` in
`Aggregation::to_prql`: `"{new_col} = {function} {col}"`. The source calls
`.unwrap()` on the last column rendering, which never fails since
`Column::to_prql` always returns `Ok`; the embedding propagates the
(unreachable) error instead. -/
def aggPairRender (f : AggregationFn) (d : Dialect) (p : Column × Column) : Except String String :=
  match Column.to_prql p.2 d with
  | .error e => .error e
  | .ok newCol =>
    match AggregationFn.to_prql f d with
    | .error e => .error e
    | .ok fn =>
      match Column.to_prql p.1 d with
      | .error e => .error e
      | .ok col => .ok (newCol ++ " = " ++ fn ++ " " ++ col)

/-- `impl ToPrql for Aggregation` (src/src/pipeline/steps/aggregate.rs lines
77-91): the zipped column pairs rendered and joined by `, `. -/
def Aggregation.to_prql (a : Aggregation) (d : Dialect) : Except String String :=
  match exceptMapList (aggPairRender a.function d) (List.zip a.columns a.new_columns) with
  | .ok parts => .ok (joinSep ", " parts)
  | .error e => .error e

/-- `struct AggregateStep` (src/src/pipeline/steps/aggregate.rs lines 7-15).
The grouping-column field is named `on` in the source; `on` is reserved in
Lean, so the field is `on_` here. -/
structure AggregateStep where
  on_ : List Column
  aggregations : List Aggregation
  keep_original_granularity : Bool

/-- The `self.on.iter().map(|col| col.to_prql(dialect)).collect()` part of
`AggregateStep::to_prql`. -/
def columnsPrql (d : Dialect) (cols : List Column) : Except String (List String) :=
  exceptMapList (fun c => Column.to_prql c d) cols

/-- The `self.aggregations.iter().map(|agg| agg.to_prql(dialect)).collect()`
part of `AggregateStep::to_prql`. -/
def aggregationsPrql (d : Dialect) (aggs : List Aggregation) : Except String (List String) :=
  exceptMapList (fun a => Aggregation.to_prql a d) aggs

/-- `impl ToPrql for AggregateStep` (src/src/pipeline/steps/aggregate.rs lines
17-65): the four-way match on `(self.on.len(), self.keep_original_granularity)`. -/
def AggregateStep.to_prql (s : AggregateStep) (d : Dialect) : Except String String :=
  match s.on_.length, s.keep_original_granularity with
  | 0, false =>
    match aggregationsPrql d s.aggregations with
    | .error e => .error e
    | .ok aggs => .ok ("aggregate \x7b " ++ joinSep ", " aggs ++ " \x7d")
  | 0, true =>
    match aggregationsPrql d s.aggregations with
    | .error e => .error e
    | .ok aggs => .ok ("derive \x7b " ++ joinSep ", " aggs ++ " \x7d")
  | _, false =>
    match columnsPrql d s.on_ with
    | .error e => .error e
    | .ok cols =>
      match aggregationsPrql d s.aggregations with
      | .error e => .error e
      | .ok aggs =>
        .ok ("group \x7b " ++ joinSep ", " cols ++ " \x7d ( aggregate \x7b " ++
          joinSep ", " aggs ++ " \x7d )")
  | _, true =>
    match columnsPrql d s.on_ with
    | .error e => .error e
    | .ok cols =>
      match aggregationsPrql d s.aggregations with
      | .error e => .error e
      | .ok aggs =>
        .ok ("group \x7b " ++ joinSep ", " cols ++ " \x7d ( window rows:.. ( derive \x7b " ++
          joinSep ", " aggs ++ " \x7d ) )")

/-- `struct DomainStep` (src/src/main.rs lines 52-56): the variant carrying the
`table` flag. (The library snapshot in src/src/pipeline/steps/domain.rs has no
flag and always renders the backticked form.) -/
structure DomainStep where
  domain : String
  table : Bool

/-- `impl ToPrql for DomainStep` (src/src/main.rs lines 58-71): a table renders
as `from` plus the backtick-quoted identifier; otherwise the opaque source text
is embedded verbatim in a raw s-string. -/
def DomainStep.to_prql (s : DomainStep) (d : Dialect) : Except String String :=
  if s.table then
    match Column.to_prql (Column.mk s.domain) d with
    | .ok c => .ok ("from " ++ c)
    | .error e => .error e
  else
    .ok ("from s\"" ++ s.domain ++ "\"")

/-! Spec-side definitions: rendered shapes written out as the spec describes
them, to be compared with the renderers embedded from the source above. -/

/-- Spec-side table of `<function-token>` (spec section 3: the function
enumeration, with first and last mapped to min and max). -/
def specFnToken : AggregationFn → String
  | .Min => "min"
  | .Max => "max"
  | .Count => "count"
  | .Avg => "avg"
  | .Sum => "sum"
  | .CountDistinct => "count_distinct"
  | .First => "min"
  | .Last => "max"

/-- Spec-side rendering of one agg-list entry:
`<resultColumn> = <function-token> <sourceColumn>` with backtick-quoted
columns, for the positional pair `p = (sourceColumn, resultColumn)`. -/
def specAggEntry (f : AggregationFn) (p : Column × Column) : String :=
  "`" ++ p.2.name ++ "`" ++ " = " ++ specFnToken f ++ " " ++ ("`" ++ p.1.name ++ "`")

/-- Spec-side rendering of one Aggregation: its positionally zipped
(source, result) pairs rendered and joined by `, `. -/
def specAggText (a : Aggregation) : String :=
  joinSep ", " ((List.zip a.columns a.new_columns).map (specAggEntry a.function))

/-- Spec-side `<agg-list>`: each aggregation's entries, aggregations joined by
`, ` as well. -/
def specAggList (aggs : List Aggregation) : String :=
  joinSep ", " (aggs.map specAggText)

/-- Spec-side `<grouping-cols>`: backtick-quoted grouping columns joined by `, `. -/
def specGroupCols (cols : List Column) : String :=
  joinSep ", " (cols.map (fun c => "`" ++ c.name ++ "`"))

/-- Spec-side four-way policy matrix of the Aggregate step (spec section 4.3)
on (grouping columns empty?, keepOriginalGranularity?). -/
def specAggregateRender (s : AggregateStep) : String :=
  if s.on_.isEmpty then
    if s.keep_original_granularity then
      "derive \x7b " ++ specAggList s.aggregations ++ " \x7d"
    else
      "aggregate \x7b " ++ specAggList s.aggregations ++ " \x7d"
  else
    if s.keep_original_granularity then
      "group \x7b " ++ specGroupCols s.on_ ++ " \x7d ( window rows:.. ( derive \x7b " ++
        specAggList s.aggregations ++ " \x7d ) )"
    else
      "group \x7b " ++ specGroupCols s.on_ ++ " \x7d ( aggregate \x7b " ++
        specAggList s.aggregations ++ " \x7d )"

/-- Spec-side comparison operator tokens (spec section 4.2). -/
def comparisonToken : ComparisonOperator → String
  | .Eq => "=="
  | .Ne => "!="
  | .Gt => ">"
  | .Gte => ">="
  | .Lt => "<"
  | .Lte => "<="

/-- Spec-side per-character escape rule of the literal quoting: a single quote
becomes `''` under Postgres and backslash-backslash-quote under BigQuery;
every other character passes through unchanged. -/
def specEscapeChar (d : Dialect) (c : Char) : List Char :=
  if c = '\'' then
    match d with
    | .Postgres => ['\'', '\'']
    | .BigQuery => ['\\', '\\', '\'']
  else [c]

/-- Spec-side `quoteLiteral`: wrap in single quotes, escaping each embedded
single quote by the dialect's substitution, all other characters unchanged. -/
def specQuoteLiteral (d : Dialect) (s : String) : String :=
  "'" ++ String.mk (s.data.flatMap (specEscapeChar d)) ++ "'"

/-- Spec-side raw-expression (s-string) identifier quoting: escaped double
quotes under Postgres, backticks under BigQuery. -/
def specSIdent (d : Dialect) (c : Column) : String :=
  match d with
  | .Postgres => "\\\"" ++ c.name ++ "\\\""
  | .BigQuery => "`" ++ c.name ++ "`"

/-- Modelled from the spec: the Postgres un-escape substitution, replacing each
non-overlapping leftmost occurrence of two single quotes by one single quote. -/
def unescapePostgres : List Char → List Char
  | c1 :: c2 :: rest =>
    if c1 = '\'' ∧ c2 = '\'' then '\'' :: unescapePostgres rest
    else c1 :: unescapePostgres (c2 :: rest)
  | l => l

/-- Modelled from the spec: the BigQuery un-escape substitution, replacing each
non-overlapping leftmost occurrence of backslash-backslash-quote by one single
quote. -/
def unescapeBigQuery : List Char → List Char
  | c1 :: c2 :: c3 :: rest =>
    if c1 = '\\' ∧ c2 = '\\' ∧ c3 = '\'' then '\'' :: unescapeBigQuery rest
    else c1 :: unescapeBigQuery (c2 :: c3 :: rest)
  | l => l

/-- Modelled from the spec: strip the outer single quotes added by
`quoteLiteral` (first and last character). -/
def stripOuterQuotes (l : List Char) : List Char :=
  (l.drop 1).dropLast

/-- Modelled from the spec: the dialect's un-escape rule — strip the outer
single quotes, then undo the dialect's quote-escape substitution. -/
def unquoteLiteral (d : Dialect) (s : String) : String :=
  match d with
  | .Postgres => String.mk (unescapePostgres (stripOuterQuotes s.data))
  | .BigQuery => String.mk (unescapeBigQuery (stripOuterQuotes s.data))

/-! Helper lemmas shared by the claim theorems. -/

/-- The fail-fast collect maps a list through `f` when `f` is `Ok` everywhere. -/
theorem exceptMapList_map {α : Type} (f : α → Except String String) (g : α → String) :
    ∀ l : List α, (∀ a ∈ l, f a = Except.ok (g a)) → exceptMapList f l = Except.ok (l.map g)
  | [], _ => rfl
  | a :: rest, h => by
    have ha := h a (List.mem_cons_self a rest)
    have hr := exceptMapList_map f g rest (fun b hb => h b (List.mem_cons_of_mem a hb))
    simp [exceptMapList, ha, hr]

/-- One zipped (source, result) pair renders to the spec-side entry text. -/
theorem aggPairRender_eq (f : AggregationFn) (d : Dialect) (p : Column × Column) :
    aggPairRender f d p = Except.ok (specAggEntry f p) := by
  cases f <;> rfl

/-- An Aggregation renders to the spec-side text of its zipped pairs. -/
theorem aggregation_to_prql_eq (a : Aggregation) (d : Dialect) :
    Aggregation.to_prql a d = Except.ok (specAggText a) := by
  unfold Aggregation.to_prql
  rw [exceptMapList_map (aggPairRender a.function d) (specAggEntry a.function)
    (List.zip a.columns a.new_columns) (fun p _ => aggPairRender_eq a.function d p)]
  rfl

/-- Grouping columns render to their backticked names. -/
theorem columnsPrql_eq (d : Dialect) (cols : List Column) :
    columnsPrql d cols = Except.ok (cols.map (fun c => "`" ++ c.name ++ "`")) :=
  exceptMapList_map (fun c => Column.to_prql c d) (fun c => "`" ++ c.name ++ "`") cols
    (fun _ _ => rfl)

/-- The aggregation list renders to the spec-side texts. -/
theorem aggregationsPrql_eq (d : Dialect) (aggs : List Aggregation) :
    aggregationsPrql d aggs = Except.ok (aggs.map specAggText) :=
  exceptMapList_map (fun a => Aggregation.to_prql a d) specAggText aggs
    (fun a _ => aggregation_to_prql_eq a d)

/-- The literal quoting equals its spec-side per-character description. -/
theorem to_s_string_eq_spec (s : String) (d : Dialect) :
    String.to_s_string s d = Except.ok (specQuoteLiteral d s) := by
  cases d <;> rfl

/-- `Value::to_s_string` never fails. -/
theorem value_to_s_string_ok (v : Value) (d : Dialect) :
    ∃ s, Value.to_s_string v d = Except.ok s := by
  cases v <;> exact ⟨_, rfl⟩

/-- The collected value renderings of an Inclusion condition never fail. -/
theorem valuesSString_ok (d : Dialect) (vs : List Value) :
    ∃ ss, valuesSString d vs = Except.ok ss := by
  induction vs with
  | nil => exact ⟨[], rfl⟩
  | cons v rest ih =>
    obtain ⟨s, hs⟩ := value_to_s_string_ok v d
    obtain ⟨ss, hss⟩ := ih
    exact ⟨s :: ss, by simp only [valuesSString, exceptMapList] at hss ⊢; rw [hs, hss]⟩

/-- Every leaf condition renders successfully. -/
theorem simple_to_prql_ok (sc : SimpleCondition) (d : Dialect) :
    ∃ s, SimpleCondition.to_prql sc d = Except.ok s := by
  cases sc with
  | Comparison cc => exact ⟨_, rfl⟩
  | Nullability cc =>
    obtain ⟨col, op⟩ := cc
    cases op <;> exact ⟨_, rfl⟩
  | Inclusion cc =>
    obtain ⟨col, op, vals⟩ := cc
    obtain ⟨ss, hss⟩ := valuesSString_ok d vals
    cases d <;> cases op <;>
      exact ⟨_, by simp only [SimpleCondition.to_prql, InclusionCondition.to_prql, hss]; rfl⟩
  | Matches cc =>
    obtain ⟨col, op, v⟩ := cc
    cases op <;> cases d <;> exact ⟨_, rfl⟩

mutual

/-- Every condition renders successfully (mutually with the operand lists). -/
theorem condition_to_prql_ok : ∀ (c : Condition) (d : Dialect),
    ∃ s, Condition.to_prql c d = Except.ok s
  | .Simple sc, d => by
    obtain ⟨s, hs⟩ := simple_to_prql_ok sc d
    exact ⟨s, by simp only [Condition.to_prql]; exact hs⟩
  | .Or ors, d => by
    obtain ⟨parts, hp⟩ := condListPrql_ok ors d
    exact ⟨_, by simp only [Condition.to_prql]; rw [hp]⟩
  | .And ands, d => by
    obtain ⟨parts, hp⟩ := condListPrql_ok ands d
    exact ⟨_, by simp only [Condition.to_prql]; rw [hp]⟩

/-- Every operand list of a composite condition renders successfully. -/
theorem condListPrql_ok : ∀ (l : List Condition) (d : Dialect),
    ∃ parts, condListPrql l d = Except.ok parts
  | [], _ => ⟨[], rfl⟩
  | c :: rest, d => by
    obtain ⟨s, hs⟩ := condition_to_prql_ok c d
    obtain ⟨ss, hss⟩ := condListPrql_ok rest d
    exact ⟨s :: ss, by simp only [condListPrql]; rw [hs, hss]⟩

end

/-- Un-escaping steps over a character that is not a single quote. -/
theorem unescP_cons (c : Char) (L : List Char) (hc : c ≠ '\'') :
    unescapePostgres (c :: L) = c :: unescapePostgres L := by
  cases L with
  | nil => rfl
  | cons d L2 => simp [unescapePostgres, hc]

/-- Postgres un-escape undoes the Postgres escape substitution. -/
theorem unescapeP_flatMap : ∀ l : List Char,
    unescapePostgres (l.flatMap (specEscapeChar Dialect.Postgres)) = l
  | [] => rfl
  | c :: rest => by
    by_cases hc : c = '\''
    · subst hc
      show unescapePostgres ('\'' :: '\'' :: rest.flatMap (specEscapeChar Dialect.Postgres)) =
        '\'' :: rest
      simp only [unescapePostgres, if_pos (And.intro rfl rfl)]
      exact congrArg _ (unescapeP_flatMap rest)
    · have hf : specEscapeChar Dialect.Postgres c = [c] := by simp [specEscapeChar, hc]
      show unescapePostgres (specEscapeChar Dialect.Postgres c ++
        rest.flatMap (specEscapeChar Dialect.Postgres)) = c :: rest
      rw [hf]
      show unescapePostgres (c :: rest.flatMap (specEscapeChar Dialect.Postgres)) = c :: rest
      rw [unescP_cons c _ hc, unescapeP_flatMap rest]

/-- The BigQuery escape of a string never starts with a single quote. -/
theorem escB_head : ∀ (t : List Char) (c : Char) (cs : List Char),
    t.flatMap (specEscapeChar Dialect.BigQuery) = c :: cs → c ≠ '\'' := by
  intro t c cs h
  cases t with
  | nil => simp at h
  | cons r rs =>
    by_cases hr : r = '\''
    · subst hr
      have h2 : ('\\' : Char) :: '\\' :: '\'' :: rs.flatMap (specEscapeChar Dialect.BigQuery) = c :: cs := h
      injection h2 with h3 _
      subst h3
      decide
    · have hf : specEscapeChar Dialect.BigQuery r = [r] := by simp [specEscapeChar, hr]
      have h2 : r :: rs.flatMap (specEscapeChar Dialect.BigQuery) = c :: cs := by
        rw [show (r :: rs).flatMap (specEscapeChar Dialect.BigQuery) =
          specEscapeChar Dialect.BigQuery r ++ rs.flatMap (specEscapeChar Dialect.BigQuery) from rfl,
          hf] at h
        exact h
      injection h2 with h3 _
      subst h3
      exact hr

/-- The BigQuery escape of a string never starts with backslash-then-quote. -/
theorem escB_second : ∀ (t : List Char) (x : Char) (cs : List Char),
    t.flatMap (specEscapeChar Dialect.BigQuery) = '\\' :: x :: cs → x ≠ '\'' := by
  intro t x cs h
  cases t with
  | nil => simp at h
  | cons r rs =>
    by_cases hr : r = '\''
    · subst hr
      have h2 : ('\\' : Char) :: '\\' :: '\'' :: rs.flatMap (specEscapeChar Dialect.BigQuery) =
        '\\' :: x :: cs := h
      injection h2 with _ h3
      injection h3 with h4 _
      subst h4
      decide
    · have hf : specEscapeChar Dialect.BigQuery r = [r] := by simp [specEscapeChar, hr]
      have h2 : r :: rs.flatMap (specEscapeChar Dialect.BigQuery) = '\\' :: x :: cs := by
        rw [show (r :: rs).flatMap (specEscapeChar Dialect.BigQuery) =
          specEscapeChar Dialect.BigQuery r ++ rs.flatMap (specEscapeChar Dialect.BigQuery) from rfl,
          hf] at h
        exact h
      injection h2 with _ h3
      exact escB_head rs x cs h3

/-- BigQuery un-escaping steps over a leading character when the tail is an escape image. -/
theorem unescB_cons (c : Char) (t : List Char) :
    unescapeBigQuery (c :: t.flatMap (specEscapeChar Dialect.BigQuery)) =
      c :: unescapeBigQuery (t.flatMap (specEscapeChar Dialect.BigQuery)) := by
  cases hL : t.flatMap (specEscapeChar Dialect.BigQuery) with
  | nil => rfl
  | cons d2 L2 =>
    cases L2 with
    | nil => rfl
    | cons d3 L3 =>
      by_cases hg : c = '\\' ∧ d2 = '\\' ∧ d3 = '\''
      · exfalso
        obtain ⟨h1, h2, h3⟩ := hg
        subst h2 h3
        exact escB_second t '\'' L3 hL rfl
      · simp [unescapeBigQuery, hg]

/-- BigQuery un-escape undoes the BigQuery escape substitution. -/
theorem unescapeB_flatMap : ∀ l : List Char,
    unescapeBigQuery (l.flatMap (specEscapeChar Dialect.BigQuery)) = l
  | [] => rfl
  | c :: rest => by
    by_cases hc : c = '\''
    · subst hc
      show unescapeBigQuery ('\\' :: '\\' :: '\'' :: rest.flatMap (specEscapeChar Dialect.BigQuery)) =
        '\'' :: rest
      simp only [unescapeBigQuery, if_pos (And.intro rfl (And.intro rfl rfl))]
      exact congrArg _ (unescapeB_flatMap rest)
    · have hf : specEscapeChar Dialect.BigQuery c = [c] := by simp [specEscapeChar, hc]
      show unescapeBigQuery (specEscapeChar Dialect.BigQuery c ++
        rest.flatMap (specEscapeChar Dialect.BigQuery)) = c :: rest
      rw [hf]
      show unescapeBigQuery (c :: rest.flatMap (specEscapeChar Dialect.BigQuery)) = c :: rest
      rw [unescB_cons c rest, unescapeB_flatMap rest]

/-- Stripping the outer quotes of a single-quoted wrap recovers the inner text. -/
theorem strip_spec_quote (inner : List Char) :
    stripOuterQuotes (("'" ++ String.mk inner ++ "'").data) = inner := by
  show (inner ++ ['\'']).dropLast = inner
  exact List.dropLast_concat ..

/-! The claim theorems. -/

/-- C1: every Aggregate step renders per the four-way policy matrix on
(grouping columns empty?, keepOriginalGranularity?): `aggregate { <agg-list> }`,
`derive { <agg-list> }`, `group { <grouping-cols> } ( aggregate { <agg-list> } )`
or `group { <grouping-cols> } ( window rows:.. ( derive { <agg-list> } ) )`,
with each agg-list entry `<resultColumn> = <function-token> <sourceColumn>`
and entries joined by `, ` (the spec-side shape `specAggregateRender`). -/
theorem aggregate_policy_matrix (s : AggregateStep) (d : Dialect) :
    AggregateStep.to_prql s d = Except.ok (specAggregateRender s) := by
  obtain ⟨cols, aggs, keep⟩ := s
  have ha := aggregationsPrql_eq d aggs
  cases cols with
  | nil =>
    cases keep <;> (unfold AggregateStep.to_prql; rw [ha]; rfl)
  | cons c cs =>
    have hc := columnsPrql_eq d (c :: cs)
    cases keep <;> (unfold AggregateStep.to_prql; rw [hc, ha]; rfl)

/-- C2: a Domain step with the table flag set renders as `from` plus the
backtick-quoted identifier, and with the flag unset as `from` plus a raw
s-string embedding the opaque source text verbatim. -/
theorem domain_step_rendering (s : DomainStep) (d : Dialect) :
    DomainStep.to_prql s d =
      Except.ok (if s.table then "from " ++ ("`" ++ s.domain ++ "`")
        else "from s\"" ++ s.domain ++ "\"") := by
  obtain ⟨dom, tbl⟩ := s
  cases tbl <;> rfl

/-- C3 counterexample: an And condition with an empty operand list is accepted
and renders as the empty string, so a Filter built from it renders as
`filter ` — construction does not fail, and the condition text is empty. -/
theorem filter_empty_and_counterexample :
    Condition.to_prql (Condition.And []) Dialect.Postgres = Except.ok "" ∧
    FilterStep.to_prql (FilterStep.mk (Condition.And [])) Dialect.Postgres =
      Except.ok "filter " := ⟨rfl, rfl⟩

/-- C3 amended: a composite condition with an empty operand list is not
rejected anywhere; And renders as the empty string (so the Filter step
renders as `filter `) and Or renders as `()`, for every dialect. -/
theorem empty_composite_renders (d : Dialect) :
    Condition.to_prql (Condition.And []) d = Except.ok "" ∧
    Condition.to_prql (Condition.Or []) d = Except.ok "()" ∧
    FilterStep.to_prql (FilterStep.mk (Condition.And [])) d = Except.ok "filter " :=
  ⟨rfl, rfl, rfl⟩

/-- C4 counterexample: a comparison leaf whose value is an array renders
successfully — the value is silently coerced to its compact JSON text, and
`Value::to_s_string` likewise returns Ok on an array. -/
theorem unsupported_value_no_failure :
    ComparisonCondition.to_prql
        (ComparisonCondition.mk (Column.mk "c") ComparisonOperator.Eq
          (Value.arr [Value.num 1, Value.num 2])) Dialect.Postgres =
      Except.ok "`c` == [1,2]" ∧
    Value.to_s_string (Value.arr [Value.num 1, Value.num 2]) Dialect.Postgres =
      Except.ok "[1,2]" := ⟨rfl, rfl⟩

/-- C4 amended: a condition leaf never fails on any runtime value type; a
comparison renders every value (arrays and objects included) through its
compact JSON text, and `Value::to_s_string` always returns Ok. -/
theorem comparison_renders_any_value (c : ComparisonCondition) (d : Dialect) :
    ComparisonCondition.to_prql c d =
      Except.ok ("`" ++ c.column.name ++ "`" ++ " " ++ comparisonToken c.operator ++ " " ++
        Value.to_string c.value) ∧
    (∀ v : Value, ∃ s, Value.to_s_string v d = Except.ok s) := by
  refine ⟨?_, fun v => value_to_s_string_ok v d⟩
  obtain ⟨col, op, v⟩ := c
  cases op <;> rfl

/-- C5 counterexample: under BigQuery an embedded single quote is not replaced
by backslash-quote; the actual replacement is backslash-backslash-quote. -/
theorem quote_literal_bigquery_counterexample :
    String.to_s_string "a'b" Dialect.BigQuery ≠ Except.ok "'a\\'b'" ∧
    String.to_s_string "a'b" Dialect.BigQuery = Except.ok "'a\\\\'b'" := by
  constructor
  · intro h
    have h2 := Except.ok.inj h
    exact absurd h2 (by decide)
  · rfl

/-- C5 amended: the literal quoting wraps its input in single quotes and
escapes each embedded single quote — doubled (`''`) under Postgres and as
backslash-backslash-quote (`\\'`) under BigQuery — while every other
character passes through unchanged (the spec-side `specQuoteLiteral`). -/
theorem quote_literal_spec (s : String) (d : Dialect) :
    String.to_s_string s d = Except.ok (specQuoteLiteral d s) ∧
    single_quote_replacement Dialect.Postgres = "''" ∧
    single_quote_replacement Dialect.BigQuery = "\\\\'" :=
  ⟨to_s_string_eq_spec s d, rfl, rfl⟩

/-- C6: for every string containing a single quote and either dialect,
quoting the literal and then applying the dialect's un-escape rule (strip the
outer single quotes and undo the dialect's quote-escape substitution)
recovers the original string exactly. -/
theorem quote_literal_round_trip (s : String) (d : Dialect) (_h : '\'' ∈ s.data) :
    Except.map (unquoteLiteral d) (String.to_s_string s d) = Except.ok s := by
  rw [to_s_string_eq_spec s d]
  show Except.ok (unquoteLiteral d (specQuoteLiteral d s)) = Except.ok s
  cases d with
  | Postgres =>
    show Except.ok (String.mk (unescapePostgres
      (stripOuterQuotes (("'" ++ String.mk (s.data.flatMap (specEscapeChar Dialect.Postgres)) ++
        "'").data)))) = Except.ok s
    rw [strip_spec_quote, unescapeP_flatMap]
  | BigQuery =>
    show Except.ok (String.mk (unescapeBigQuery
      (stripOuterQuotes (("'" ++ String.mk (s.data.flatMap (specEscapeChar Dialect.BigQuery)) ++
        "'").data)))) = Except.ok s
    rw [strip_spec_quote, unescapeB_flatMap]

/-- C6 witness: the round trip at the concrete string `a'b` under BigQuery. -/
theorem quote_literal_round_trip_witness :
    '\'' ∈ ("a'b" : String).data ∧
    Except.map (unquoteLiteral Dialect.BigQuery)
      (String.to_s_string "a'b" Dialect.BigQuery) = Except.ok "a'b" :=
  ⟨by decide, quote_literal_round_trip "a'b" Dialect.BigQuery (by decide)⟩

/-- C7: an And condition renders as the operands' texts joined with ` && `
and no enclosing parentheses, and an Or condition as the operands' texts
joined with ` || ` wrapped in parentheses — for every operand list, hence at
every nesting depth. -/
theorem and_or_rendering (l : List Condition) (d : Dialect) :
    ∃ parts, condListPrql l d = Except.ok parts ∧
      Condition.to_prql (Condition.And l) d = Except.ok (joinSep " && " parts) ∧
      Condition.to_prql (Condition.Or l) d =
        Except.ok ("(" ++ joinSep " || " parts ++ ")") := by
  obtain ⟨parts, hp⟩ := condListPrql_ok l d
  refine ⟨parts, hp, ?_, ?_⟩ <;> (simp only [Condition.to_prql]; rw [hp])

/-- C8: a Matches or NotMatches condition renders as a raw s-string whose
template depends on the dialect — `SIMILAR TO` / `NOT SIMILAR TO` under
Postgres and `REGEXP_CONTAINS` / `NOT REGEXP_CONTAINS` under BigQuery — with
the identifier quoted in raw-expression style and the pattern quoted as a
literal. -/
theorem matches_rendering (c : MatchesCondition) (d : Dialect) :
    MatchesCondition.to_prql c d = Except.ok (match c.operator, d with
      | .Matches, .Postgres =>
        "s\"" ++ specSIdent d c.column ++ " SIMILAR TO " ++ specQuoteLiteral d c.value ++ "\""
      | .NotMatches, .Postgres =>
        "s\"" ++ specSIdent d c.column ++ " NOT SIMILAR TO " ++ specQuoteLiteral d c.value ++ "\""
      | .Matches, .BigQuery =>
        "s\"REGEXP_CONTAINS(" ++ specSIdent d c.column ++ "," ++ specQuoteLiteral d c.value ++ ")\""
      | .NotMatches, .BigQuery =>
        "s\"NOT REGEXP_CONTAINS(" ++ specSIdent d c.column ++ "," ++
          specQuoteLiteral d c.value ++ ")\"") := by
  obtain ⟨col, op, v⟩ := c
  cases op <;> cases d <;> rfl

/-- C9: an Aggregation whose column lists have different lengths still renders
successfully, emitting exactly min(len, len) positional pairs — the zipped
prefix — with no error for the mismatch. -/
theorem aggregation_length_mismatch (a : Aggregation) (d : Dialect)
    (_h : a.columns.length ≠ a.new_columns.length) :
    Aggregation.to_prql a d =
      Except.ok (joinSep ", "
        ((List.zip a.columns a.new_columns).map (specAggEntry a.function))) ∧
    (List.zip a.columns a.new_columns).length =
      min a.columns.length a.new_columns.length :=
  ⟨aggregation_to_prql_eq a d, List.length_zip ..⟩

/-- C9 witness: two source columns against one result column render as the
single zipped pair, silently dropping the excess source column. -/
theorem aggregation_length_mismatch_witness :
    Aggregation.to_prql (Aggregation.mk [Column.mk "Price", Column.mk "Quantity"]
        [Column.mk "Price_sum"] AggregationFn.Sum) Dialect.Postgres =
      Except.ok "`Price_sum` = sum `Price`" ∧
    (List.zip [Column.mk "Price", Column.mk "Quantity"] [Column.mk "Price_sum"]).length =
      min 2 1 := by
  have h := aggregation_length_mismatch
    (Aggregation.mk [Column.mk "Price", Column.mk "Quantity"] [Column.mk "Price_sum"]
      AggregationFn.Sum) Dialect.Postgres (by decide)
  exact ⟨h.1.trans (by rfl), h.2⟩

/-- C10: the structured identifier rendering backticks the name and is the
same for both dialects; only the raw-expression rendering diverges — escaped
double quotes for Postgres, backticks for BigQuery. -/
theorem column_rendering (c : Column) (d : Dialect) :
    Column.to_prql c d = Except.ok ("`" ++ c.name ++ "`") ∧
    Column.to_prql c d = Column.to_prql c Dialect.Postgres ∧
    Column.to_s_string c Dialect.Postgres = Except.ok ("\\\"" ++ c.name ++ "\\\"") ∧
    Column.to_s_string c Dialect.BigQuery = Except.ok ("`" ++ c.name ++ "`") := by
  refine ⟨rfl, ?_, rfl, rfl⟩
  cases d <;> rfl

end WeaverbirdPrql
